import Mathlib

/-!
Verification of the password-generator core (`src/pwd-gen.ts`) against its
natural-language specification.

Shallow embedding conventions:
* JavaScript numbers that can be `NaN` are modelled by `JsNum`
  (`nan` or an exact rational value); all comparisons involving `NaN`
  are `false`, as in JavaScript.  The lengths handled by the program are
  exact small integers, for which IEEE doubles are exact.
* Strings are modelled as `String` / `List Char`; character sets keep the
  exact character order of the source (index-based picking depends on it).
* The random source is modelled at two levels.  At the byte level
  (`getRandomIntFuel`) an infinite stream of bytes feeds the rejection
  sampler exactly as `getRandomInt` consumes `crypto.getRandomValues`.
  At the sampling-engine level every call of `getRandomInt(0, r)` is
  abstracted to `s k % r` for an arbitrary stream `s : Nat -> Nat`:
  every sequence of in-range results of the real routine corresponds to
  such a stream, and conversely, so properties quantified over all
  streams cover every outcome of the random source.
* Fallible code returns `Except String`, carrying the thrown message.
-/

namespace PwdGen

/-- A JavaScript number: `NaN` or an exact rational value. -/
inductive JsNum where
  | nan : JsNum
  | num : ℚ → JsNum
deriving DecidableEq

/-- JavaScript `<` on numbers: any comparison with `NaN` is false. -/
def JsNum.ltb : JsNum → JsNum → Bool
  | .num a, .num b => a < b
  | _, _ => false

/-- JavaScript `isNaN`. -/
def JsNum.isNaN : JsNum → Bool
  | .nan => true
  | .num _ => false

/-- JavaScript `Math.floor` (on non-NaN input). -/
def JsNum.floor : JsNum → JsNum
  | .nan => .nan
  | .num q => .num ⌊q⌋

/-- Number of iterations of `for (let i = 0; i < x; i++)` over a JS number:
    zero when `x` is `NaN` (all comparisons false) or non-positive. -/
def JsNum.loopCount : JsNum → ℕ
  | .nan => 0
  | .num q => if q ≤ 0 then 0 else ⌈q⌉.toNat

/-- JavaScript `n > x` for a natural `n` against a JS number `x`. -/
def JsNum.natGtb (n : ℕ) : JsNum → Bool
  | .nan => false
  | .num q => (n : ℚ) > q

/-- The numeric value, if not `NaN`. -/
noncomputable def JsNum.toRealOpt : JsNum → Option ℝ
  | .nan => none
  | .num q => some (q : ℝ)

/-- `PasswordGenerator.LOWER`. -/
def LOWER : List Char := "abcdefghijklmnopqrstuvwxyz".toList

/-- `PasswordGenerator.UPPER`. -/
def UPPER : List Char := "ABCDEFGHIJKLMNOPQRSTUVWXYZ".toList

/-- `PasswordGenerator.DIGITS`. -/
def DIGITS : List Char := "0123456789".toList

/-- `PasswordGenerator.SPECIAL`, in source order
    (braces written as escapes). -/
def SPECIAL : List Char :=
  ['!', '@', '#', '$', '%', '^', '&', '*', '(', ')', '_', '+', '-', '=',
   '[', ']', '\x7b', '\x7d', '|', ';', '\'', ':', '"', ',', '.', '/',
   '<', '>', '?']

/-- The similar-looking characters matched by the regex `[il1Lo0O]`. -/
def SIMILAR : List Char := ['i', 'l', '1', 'L', 'o', '0', 'O']

/-- `String.prototype.replace` with the global regex `[il1Lo0O]` and an
    empty replacement: drop every similar character. -/
def removeSimilar (cs : List Char) : List Char :=
  cs.filter (fun c => !(SIMILAR.contains c))

/-- The `PasswordOptions` object.  A field is `none` when absent from the
    request.  `length` is a JS number (possibly `NaN`); the per-category
    minimums are modelled for natural-number values, which is the whole
    domain the claims quantify over. -/
structure PasswordOptions where
  mode : Option String := none
  length : Option JsNum := none
  isSpecial : Option Bool := none
  customCharset : Option String := none
  excludeSimilar : Option Bool := none
  minLower : Option ℕ := none
  minUpper : Option ℕ := none
  minDigit : Option ℕ := none
  minSpecial : Option ℕ := none
  separator : Option String := none
  wordlist : Option (List String) := none
  preset : Option String := none
deriving DecidableEq

/-- A preset from the `PRESETS` table: a partial options record holding
    exactly the fields that the preset object defines. -/
structure Preset where
  length : Option JsNum := none
  isSpecial : Option Bool := none
  excludeSimilar : Option Bool := none
  minSpecial : Option ℕ := none
  minDigit : Option ℕ := none
  minUpper : Option ℕ := none
deriving DecidableEq

/-- The fixed `PRESETS` table; lookup of any other name yields
    `undefined` (`none`). -/
def PRESETS : String → Option Preset
  | "wifi" => some { length := some (.num 16), isSpecial := some false,
                     excludeSimilar := some true }
  | "enterprise" => some { length := some (.num 20), minSpecial := some 2,
                           minDigit := some 2, minUpper := some 2 }
  | "legacy" => some { length := some (.num 8), isSpecial := some true }
  | "ultra" => some { length := some (.num 64), minSpecial := some 10,
                      minDigit := some 10 }
  | _ => none

/-- `{ ...options, ...preset }` from the constructor: fields present on the
    preset object overwrite the request's fields; everything else is kept.
    `PRESETS[unknownName]` is `undefined` and spreading `undefined` is a
    no-op, as is the case `options.preset` falsy (absent or empty). -/
def mergePreset (o : PasswordOptions) : PasswordOptions :=
  match o.preset with
  | none => o
  | some name =>
    if name = "" then o
    else
      match PRESETS name with
      | none => o
      | some p =>
        { o with
          length := p.length.or o.length
          isSpecial := p.isSpecial.or o.isSpecial
          excludeSimilar := p.excludeSimilar.or o.excludeSimilar
          minSpecial := p.minSpecial.or o.minSpecial
          minDigit := p.minDigit.or o.minDigit
          minUpper := p.minUpper.or o.minUpper }

/-- `this.options.mode || "random"` (empty string is falsy). -/
def resolveMode (m : Option String) : String :=
  match m with
  | some s => if s = "" then "random" else s
  | none => "random"

/-- The fields the constructor computes besides the saved options:
    `mode`, `length`, `charset`, `isSpecial`. -/
structure Core where
  mode : String
  length : JsNum
  charset : List Char
  isSpecial : Bool
deriving DecidableEq

/-- Resolved `excludeSimilar` as read by `pick` (truthiness of
    `this.options.excludeSimilar`). -/
def excludeSimilarRes (o : PasswordOptions) : Bool :=
  o.excludeSimilar.getD false

/-- Truthiness test of `customCharset` inside `generateRandom`
    (`!customCharset`): true when absent or the empty string. -/
def noCustomCharset (o : PasswordOptions) : Bool :=
  match o.customCharset with
  | none => true
  | some cc => cc = ""

/-- Resolved `isSpecial` as destructured inside `generateRandom`
    (default `true`). -/
def isSpecialRes (o : PasswordOptions) : Bool :=
  o.isSpecial.getD true

/-- The default alphabet: lower, upper, digits, and the special set when
    special characters are requested. -/
def defaultAlphabet (isSp : Bool) : List Char :=
  LOWER ++ UPPER ++ DIGITS ++ if isSp then SPECIAL else []

/-- The base charset picked by the constructor before similar-character
    filtering: the custom charset when present and non-empty (truthy),
    the default alphabet otherwise. -/
def baseCharsetOf (o : PasswordOptions) : List Char :=
  match o.customCharset with
  | some cc =>
    if cc = "" then defaultAlphabet (isSpecialRes o) else cc.toList
  | none => defaultAlphabet (isSpecialRes o)

/-- The resolved charset: the base charset, similar-filtered when
    `excludeSimilar` is set. -/
def resolvedCharset (o : PasswordOptions) : List Char :=
  if excludeSimilarRes o then removeSimilar (baseCharsetOf o)
  else baseCharsetOf o

/-- The validating part of the constructor, run on the merged options.
    Mirrors `pwd-gen.ts` lines 84-148; errors carry the thrown message.
    Notes on fidelity: the `typeof length !== "number"` arm cannot fire in
    the model because `length`, when present, is a number; the
    `customCharset.length === 0` throw of the source is dead code, since
    `if (customCharset)` already sends the empty string to the default
    alphabet (see `baseCharsetOf`). -/
def resolveCore (o : PasswordOptions) : Except String Core :=
  if resolveMode o.mode = "random" then
    if (o.length.getD (.num 12)).isNaN
        || (o.length.getD (.num 12)).ltb (.num 8)
        || JsNum.ltb (.num 128) (o.length.getD (.num 12)) then
      .error "Password length must be an integer between 8 and 128 characters."
    else if excludeSimilarRes o then
      if (removeSimilar (baseCharsetOf o)).length = 0 then
        .error "Charset is empty after excluding similar characters."
      else
        .ok { mode := resolveMode o.mode,
              length := (o.length.getD (.num 12)).floor,
              charset := removeSimilar (baseCharsetOf o),
              isSpecial := isSpecialRes o }
    else
      .ok { mode := resolveMode o.mode,
            length := (o.length.getD (.num 12)).floor,
            charset := baseCharsetOf o, isSpecial := isSpecialRes o }
  else
    if (o.length.getD (.num 5)).ltb (.num 3)
        || JsNum.ltb (.num 20) (o.length.getD (.num 5)) then
      .error "Passphrase length must be between 3 and 20 words."
    else
      .ok { mode := resolveMode o.mode, length := o.length.getD (.num 5),
            charset := [], isSpecial := false }

/-- The constructed `PasswordGenerator` instance. -/
structure Generator where
  mode : String
  length : JsNum
  charset : List Char
  isSpecial : Bool
  options : PasswordOptions
deriving DecidableEq

/-- `new PasswordGenerator(options)`: merge the preset into the request,
    validate, and keep the merged options on the instance. -/
def construct (options : PasswordOptions) : Except String Generator :=
  (resolveCore (mergePreset options)).map (fun c =>
    { mode := c.mode, length := c.length, charset := c.charset,
      isSpecial := c.isSpecial, options := mergePreset options })

/-- Effective minimum for the lowercase category
    (`actualMinLower`, lines 176-177). -/
def effMinLower (o : PasswordOptions) : ℕ :=
  if noCustomCharset o && isSpecialRes o then max (o.minLower.getD 0) 1
  else o.minLower.getD 0

/-- Effective minimum for the uppercase category (`actualMinUpper`). -/
def effMinUpper (o : PasswordOptions) : ℕ :=
  if noCustomCharset o && isSpecialRes o then max (o.minUpper.getD 0) 1
  else o.minUpper.getD 0

/-- Effective minimum for the digit category (`actualMinDigit`). -/
def effMinDigit (o : PasswordOptions) : ℕ :=
  if noCustomCharset o && isSpecialRes o then max (o.minDigit.getD 0) 1
  else o.minDigit.getD 0

/-- Effective minimum for the special category (`actualMinSpecial`). -/
def effMinSpecial (o : PasswordOptions) : ℕ :=
  if noCustomCharset o && isSpecialRes o then max (o.minSpecial.getD 0) 1
  else o.minSpecial.getD 0

/-- Sum of the four effective minimums, i.e. `requiredChars.length`. -/
def effSum (o : PasswordOptions) : ℕ :=
  effMinLower o + effMinUpper o + effMinDigit o + effMinSpecial o

/-- `pick(source)` given the outcome `x` of its single `getRandomInt`
    call: filter similar characters when the option is active, fall back
    to the unfiltered source when filtering empties it. -/
def pickChar (g : Generator) (src : List Char) (x : ℕ) : Char :=
  let filtered := if excludeSimilarRes g.options then removeSimilar src else src
  if filtered.length = 0 then src.getD (x % src.length) 'a'
  else filtered.getD (x % filtered.length) 'a'

/-- `n` consecutive `pick(source)` calls, consuming draws
    `s k, s (k+1), ...`. -/
def pickN (g : Generator) (s : ℕ → ℕ) (k : ℕ) (src : List Char) (n : ℕ) :
    List Char :=
  (List.range n).map (fun i => pickChar g src (s (k + i)))

/-- The destructuring swap `[result[i], result[j]] = [result[j], result[i]]`
    (both reads happen before both writes). -/
def listSwap (l : List Char) (i j : ℕ) : List Char :=
  (l.set i (l.getD j 'a')).set j (l.getD i 'a')

/-- The Fisher-Yates loop of `shuffle`, from the current index `i` down
    to `1`; each iteration consumes one draw, `j = s k % (i+1)`. -/
def shuffleGo (s : ℕ → ℕ) (k : ℕ) : ℕ → List Char → List Char
  | 0, l => l
  | i + 1, l => shuffleGo s (k + 1) i (listSwap l (i + 1) (s k % (i + 2)))

/-- `shuffle(array)`: Fisher-Yates from `length - 1` down to `1`. -/
def fisherYates (s : ℕ → ℕ) (k : ℕ) (l : List Char) : List Char :=
  shuffleGo s k (l.length - 1) l

/-- The guaranteed characters of `generateRandom` (lines 185-195): for
    each category, `effMin` many `pick` calls on that category's fixed
    sub-alphabet, consuming consecutive draws. -/
def requiredChars (g : Generator) (s : ℕ → ℕ) : List Char :=
  pickN g s 0 LOWER (effMinLower g.options) ++
    pickN g s (effMinLower g.options) UPPER (effMinUpper g.options) ++
    pickN g s (effMinLower g.options + effMinUpper g.options) DIGITS
      (effMinDigit g.options) ++
    pickN g s (effMinLower g.options + effMinUpper g.options +
      effMinDigit g.options) SPECIAL (effMinSpecial g.options)

/-- The filling characters (lines 204-206): `pick(this.charset)` until
    the list reaches `this.length`. -/
def fillChars (g : Generator) (s : ℕ → ℕ) : List Char :=
  (List.range (g.length.loopCount - effSum g.options)).map
    (fun i => pickChar g g.charset (s (effSum g.options + i)))

/-- The character pipeline of `generateRandom` (lines 165-209 up to the
    shuffled character list): guarantee the per-category minimums, check
    them against the length, fill from the resolved charset, shuffle. -/
def generateRandomChars (g : Generator) (s : ℕ → ℕ) :
    Except String (List Char) :=
  if JsNum.natGtb (requiredChars g s).length g.length then
    .error "Minimum requirements exceed the requested password length."
  else
    .ok (fisherYates s (effSum g.options + (fillChars g s).length)
      (requiredChars g s ++ fillChars g s))

/-- `getWordlist()`: `this.options.wordlist || DEFAULT_WORDLIST`.  In
    JavaScript every array is truthy, including the empty one, so any
    supplied list is returned as-is. -/
def getWordlist (o : PasswordOptions) (defaultWordlist : List String) :
    List String :=
  match o.wordlist with
  | some w => w
  | none => defaultWordlist

/-- Modelled from the spec: `DEFAULT_WORDLIST` lives in
    `src/wordlist.ts`, which is not part of the provided sources; the
    spec documents a built-in wordlist of 2052 entries.  The entries are
    modelled as distinct placeholder words — only the size is relevant
    to the claims. -/
def DEFAULT_WORDLIST : List String :=
  (List.range 2052).map (fun i => String.push (toString i) 'w')

/-- `this.options.separator || "-"`: the empty string is falsy and so
    falls back to the default separator. -/
def resolvedSeparator (o : PasswordOptions) : String :=
  match o.separator with
  | some sep => if sep = "" then "-" else sep
  | none => "-"

/-- The word pipeline of `generatePassphrase` (lines 237-245).  When the
    loop runs at least once over an empty word source,
    `getRandomInt(0, 0)` computes `Math.ceil(Math.log2(0)) = -Infinity`
    bytes and `new Uint8Array(-Infinity)` throws a `RangeError`; that
    failure is modelled as an error. -/
def generatePassphraseWords (g : Generator) (s : ℕ → ℕ) :
    Except String (List String) :=
  let wl := getWordlist g.options DEFAULT_WORDLIST
  let n := g.length.loopCount
  if n ≠ 0 && wl.length = 0 then
    .error "RangeError: Invalid typed array length"
  else
    .ok ((List.range n).map (fun i => wl.getD (s i % wl.length) ""))

/-- `Math.round(x * 100) / 100` over the reals; JS `Math.round` is
    `floor(x + 1/2)`, which is Mathlib's `round` for positive values. -/
noncomputable def round2 (x : ℝ) : ℝ := round (x * 100) / 100

/-- `calculateEntropy()`: `this.length * Math.log2(this.charset.length)`
    rounded to two decimals; `NaN` is propagated as `none`. -/
noncomputable def calculateEntropy (g : Generator) : Option ℝ :=
  g.length.toRealOpt.map (fun L => round2 (L * Real.logb 2 (g.charset.length)))

/-- `calculatePassphraseEntropy()`. -/
noncomputable def calculatePassphraseEntropy (g : Generator) : Option ℝ :=
  g.length.toRealOpt.map (fun L =>
    round2 (L * Real.logb 2 ((getWordlist g.options DEFAULT_WORDLIST).length)))

/-- `getStrengthLevel(entropy)`; every comparison with `NaN` is false, so
    `NaN` entropy falls through to the final branch. -/
noncomputable def getStrengthLevel (e : Option ℝ) : String :=
  match e with
  | none => "Very Strong"
  | some x =>
    if x < 40 then "Weak"
    else if x < 60 then "Medium"
    else if x < 80 then "Strong"
    else "Very Strong"

/-- `PasswordResult`. -/
structure PasswordResult where
  password : String
  entropy : Option ℝ
  strength : String

/-- Assembles the result of `generateRandom` from the shuffled characters. -/
noncomputable def mkRandomResult (g : Generator) (cs : List Char) :
    PasswordResult :=
  { password := ⟨cs⟩, entropy := calculateEntropy g,
    strength := getStrengthLevel (calculateEntropy g) }

/-- `generateRandom()`. -/
noncomputable def generateRandom (g : Generator) (s : ℕ → ℕ) :
    Except String PasswordResult :=
  (generateRandomChars g s).map (mkRandomResult g)

/-- Assembles the result of `generatePassphrase` from the drawn words. -/
noncomputable def mkPassphraseResult (g : Generator) (ws : List String) :
    PasswordResult :=
  { password := String.intercalate (resolvedSeparator g.options) ws,
    entropy := calculatePassphraseEntropy g,
    strength := getStrengthLevel (calculatePassphraseEntropy g) }

/-- `generatePassphrase()`. -/
noncomputable def generatePassphrase (g : Generator) (s : ℕ → ℕ) :
    Except String PasswordResult :=
  (generatePassphraseWords g s).map (mkPassphraseResult g)

/-- `generateFull()`: dispatch on the mode. -/
noncomputable def generateFull (g : Generator) (s : ℕ → ℕ) :
    Except String PasswordResult :=
  if g.mode = "passphrase" then generatePassphrase g s else generateRandom g s

/-- `generate()`. -/
noncomputable def generate (g : Generator) (s : ℕ → ℕ) :
    Except String String :=
  (generateFull g s).map (fun r => r.password)

/-- Fuel-driven ceiling base-2 logarithm (structural recursion, so the
    kernel can evaluate it on concrete inputs). -/
def clog2F : ℕ → ℕ → ℕ
  | 0, _ => 0
  | fuel + 1, n => if n ≤ 1 then 0 else clog2F fuel ((n + 1) / 2) + 1

/-- `Math.ceil(Math.log2(range))`: exact for every range representable
    in at most three bytes (the doubles involved are exact there). -/
def bitsNeeded (range : ℕ) : ℕ := clog2F range range

/-- `Math.ceil(bitsNeeded / 8)`. -/
def bytesNeeded (range : ℕ) : ℕ := (bitsNeeded range + 7) / 8

/-- `Math.pow(256, bytesNeeded)`. -/
def maxValue (range : ℕ) : ℕ := 256 ^ bytesNeeded range

/-- Wrap an integer into the signed 32-bit range, as JavaScript `ToInt32`
    does for the operands and result of `<<`. -/
def wrap32 (x : ℤ) : ℤ := (x + 2 ^ 31) % 2 ^ 32 - 2 ^ 31

/-- The accumulator loop `val = (val << 8) + byteArray[i]` over the `n`
    bytes starting at stream position `k`.  JavaScript `<<` converts its
    operand to a signed 32-bit integer and wraps the result, hence the
    `wrap32`; the subsequent `+` is exact double addition.  Each stream
    element is one byte of `crypto.getRandomValues` (taken mod 256). -/
def jsVal (bytes : ℕ → ℕ) (k : ℕ) : ℕ → ℤ
  | 0 => 0
  | n + 1 => wrap32 (jsVal bytes k n * 256) + (bytes (k + n) % 256 : ℕ)

/-- The same `n` bytes read as a big-endian unsigned integer (the
    mathematical value the loop is meant to compute). -/
def beValue (bytes : ℕ → ℕ) (k : ℕ) : ℕ → ℕ
  | 0 => 0
  | n + 1 => beValue bytes k n * 256 + bytes (k + n) % 256

/-- `getRandomInt(0, range)` on the byte stream `bytes`, starting at
    stream position `k`: each loop iteration draws `bytesNeeded` fresh
    bytes, accumulates `val`, accepts when
    `val < maxValue - (maxValue % range)` and returns `min + (val % range)`
    with `min = 0` (JavaScript `%` truncates toward zero, `Int.tmod`).
    The rejection loop is bounded by `fuel`; `none` means no acceptance
    within `fuel` rounds. -/
def getRandomIntFuel (bytes : ℕ → ℕ) (range : ℕ) : ℕ → ℕ → Option ℤ
  | _, 0 => none
  | k, fuel + 1 =>
    if jsVal bytes k (bytesNeeded range) <
        ((maxValue range : ℕ) : ℤ) - Int.tmod ((maxValue range : ℕ) : ℤ) range
    then some (Int.tmod (jsVal bytes k (bytesNeeded range)) range)
    else getRandomIntFuel bytes range (k + bytesNeeded range) fuel

/-- Decidable equality for `Except`, used to evaluate the model on
    concrete inputs. -/
instance {ε α : Type} [DecidableEq ε] [DecidableEq α] :
    DecidableEq (Except ε α) := fun x y =>
  match x, y with
  | .error a, .error b =>
    if h : a = b then .isTrue (congrArg Except.error h)
    else .isFalse (fun hc => h (Except.error.inj hc))
  | .ok a, .ok b =>
    if h : a = b then .isTrue (congrArg Except.ok h)
    else .isFalse (fun hc => h (Except.ok.inj hc))
  | .error _, .ok _ => .isFalse (fun hc => Except.noConfusion hc)
  | .ok _, .error _ => .isFalse (fun hc => Except.noConfusion hc)

/-- A request that names the `wifi` preset and also explicitly sets a
    field the preset defines (`length`). -/
def wifiConflictOpts : PasswordOptions :=
  { length := some (.num 12), preset := some ("wifi") }

/-- The `wifi` entry of the preset table, spelled out. -/
def wifiPreset : Preset :=
  { length := some (.num 16), isSpecial := some false,
    excludeSimilar := some true }

/-- The `enterprise` entry of the preset table, spelled out. -/
def enterprisePreset : Preset :=
  { length := some (.num 20), minSpecial := some 2, minDigit := some 2,
    minUpper := some 2 }

/-- A request that names the `enterprise` preset and also explicitly sets
    a field the preset defines (`minDigit`). -/
def enterpriseConflictOpts : PasswordOptions :=
  { minDigit := some 7, preset := some ("enterprise") }

/-- A request naming a preset absent from the table. -/
def bogusPresetOpts : PasswordOptions :=
  { length := some (.num 12), preset := some ("bogus") }

/-- A passphrase request with `length: NaN`. -/
def nanPassphraseOpts : PasswordOptions :=
  { mode := some ("passphrase"), length := some .nan }

/-- A passphrase request carrying an explicitly empty wordlist array. -/
def emptyWordlistOpts : PasswordOptions :=
  { mode := some ("passphrase"), wordlist := some [] }

/-- The empty string. -/
def emptyStr : String := ""

/-- A concrete word for witnesses. -/
def appleWord : String := "apple"

/-- A request whose minimums exceed its length (8 < 9 digits). -/
def minsExceedOpts : PasswordOptions :=
  { length := some (.num 8), isSpecial := some false, minDigit := some 9 }

/-- The generator constructed from the empty request (all defaults). -/
def defaultGen : Generator :=
  { mode := "random", length := .num 12, charset := defaultAlphabet true,
    isSpecial := true, options := {} }

/-- The character list the default generator produces on the all-zero
    draw stream. -/
def c6Chars : List Char :=
  match generateRandomChars defaultGen (fun _ => 0) with
  | .ok cs => cs
  | .error _ => []

/-- Membership in the lowercase category. -/
def isLowerChar (c : Char) : Bool := decide (c ∈ LOWER)

/-- Membership in the uppercase category. -/
def isUpperChar (c : Char) : Bool := decide (c ∈ UPPER)

/-- Membership in the digit category. -/
def isDigitChar (c : Char) : Bool := decide (c ∈ DIGITS)

/-- Membership in the special category. -/
def isSpecialChar (c : Char) : Bool := decide (c ∈ SPECIAL)

/-- A request switching on similar-character exclusion. -/
def exclOpts : PasswordOptions := { excludeSimilar := some true }

/-- The generator constructed from `exclOpts`. -/
def exclGen : Generator :=
  { mode := "random", length := .num 12,
    charset := removeSimilar (defaultAlphabet true), isSpecial := true,
    options := exclOpts }

/-- The character list `exclGen` produces on the all-zero draw stream. -/
def c5Chars : List Char :=
  match generateRandomChars exclGen (fun _ => 0) with
  | .ok cs => cs
  | .error _ => []

/-- A passphrase request explicitly supplying the empty string as
    separator. -/
def emptySepOpts : PasswordOptions :=
  { mode := some ("passphrase"), length := some (.num 3),
    separator := some emptyStr }

/-- The generator constructed from `emptySepOpts`. -/
def emptySepGen : Generator :=
  { mode := "passphrase", length := .num 3, charset := [],
    isSpecial := false, options := emptySepOpts }

/-- The all-255 byte stream. -/
def allFF : ℕ → ℕ := fun _ => 255

-- DEFS-END

theorem clog2F_eq_clog {fuel n : ℕ} (h : n ≤ fuel) :
    clog2F fuel n = Nat.clog 2 n := by
  induction fuel generalizing n with
  | zero =>
    interval_cases n
    simp [clog2F]
  | succ fuel ih =>
    rw [clog2F]
    by_cases h1 : n ≤ 1
    · simp [h1, Nat.clog_of_right_le_one h1]
    · push_neg at h1
      have h2 : (n + 1) / 2 ≤ fuel := by omega
      rw [if_neg (by omega), ih h2, Nat.clog_of_two_le (by norm_num) h1]
      norm_num

theorem bitsNeeded_eq_clog (range : ℕ) : bitsNeeded range = Nat.clog 2 range :=
  clog2F_eq_clog le_rfl

theorem bytesNeeded_minimal (r m : ℕ) : r ≤ 256 ^ m ↔ bytesNeeded r ≤ m := by
  have h256 : (256 : ℕ) = 2 ^ 8 := by norm_num
  rw [bytesNeeded, bitsNeeded_eq_clog, h256, ← pow_mul,
    Nat.le_pow_iff_clog_le (by norm_num)]
  omega

theorem beValue_lt (bytes : ℕ → ℕ) (k n : ℕ) :
    beValue bytes k n < 256 ^ n := by
  induction n with
  | zero => simp [beValue]
  | succ n ih =>
    rw [beValue, pow_succ]
    have hb : bytes (k + n) % 256 < 256 := Nat.mod_lt _ (by norm_num)
    have h1 : (beValue bytes k n + 1) * 256 ≤ 256 ^ n * 256 :=
      Nat.mul_le_mul_right _ ih
    omega

theorem wrap32_eq {x : ℤ} (h0 : 0 ≤ x) (h1 : x < 2 ^ 31) : wrap32 x = x := by
  unfold wrap32
  rw [Int.emod_eq_of_lt (by omega) (by omega)]
  omega

set_option maxRecDepth 4000 in
theorem jsVal_eq_beValue {n : ℕ} (hn : 256 ^ n ≤ 2 ^ 31) (bytes : ℕ → ℕ)
    (k : ℕ) : jsVal bytes k n = (beValue bytes k n : ℤ) := by
  induction n with
  | zero => simp [jsVal, beValue]
  | succ n ih =>
    have hmono : (256 : ℕ) ^ n ≤ 256 ^ (n + 1) :=
      Nat.pow_le_pow_right (by norm_num) (Nat.le_succ n)
    have hn' : (256 : ℕ) ^ n ≤ 2 ^ 31 := le_trans hmono hn
    have hlt : beValue bytes k n * 256 + 256 ≤ 256 ^ (n + 1) := by
      have := beValue_lt bytes k n
      have h1 : (beValue bytes k n + 1) * 256 ≤ 256 ^ n * 256 :=
        Nat.mul_le_mul_right _ this
      rw [pow_succ]
      omega
    rw [jsVal, beValue, ih hn']
    have hcast : ((beValue bytes k n : ℤ) * 256) = ((beValue bytes k n * 256 : ℕ) : ℤ) := by
      push_cast
      ring
    have hlt2 : (beValue bytes k n * 256 : ℕ) < 2 ^ 31 := by omega
    rw [hcast, wrap32_eq (by positivity) (by exact_mod_cast hlt2)]
    push_cast
    ring

theorem threshold_eq (r M : ℕ) :
    (M : ℤ) - Int.tmod (M : ℕ) r = ((M / r) * r : ℕ) := by
  rw [Int.tmod_eq_emod (by positivity) (by positivity)]
  have hcast : ((M : ℤ)) % ((r : ℕ) : ℤ) = ((M % r : ℕ) : ℤ) :=
    (Int.natCast_mod M r).symm
  have hc : r * (M / r) = M / r * r := Nat.mul_comm _ _
  have h3 : M % r + M / r * r = M := by
    rw [← hc]
    exact Nat.mod_add_div M r
  have hnat : M - M % r = M / r * r := Nat.sub_eq_of_eq_add (by omega)
  rw [hcast, ← hnat, ← Nat.cast_sub (Nat.mod_le M r)]

theorem getRandomIntFuel_accept {r : ℕ}
    (hsmall : 256 ^ bytesNeeded r ≤ 2 ^ 31) (bytes : ℕ → ℕ) (k fuel : ℕ)
    (hacc : beValue bytes k (bytesNeeded r) < maxValue r / r * r) :
    getRandomIntFuel bytes r k (fuel + 1) =
      some ((beValue bytes k (bytesNeeded r) % r : ℕ)) := by
  rw [getRandomIntFuel]
  rw [jsVal_eq_beValue hsmall]
  rw [if_pos]
  · rw [Int.tmod_eq_emod (by positivity) (by positivity)]
    exact congrArg some (Int.natCast_mod _ r).symm
  · rw [threshold_eq]
    exact_mod_cast hacc

theorem getRandomIntFuel_reject {r : ℕ}
    (hsmall : 256 ^ bytesNeeded r ≤ 2 ^ 31) (bytes : ℕ → ℕ) (k fuel : ℕ)
    (hrej : ¬ beValue bytes k (bytesNeeded r) < maxValue r / r * r) :
    getRandomIntFuel bytes r k (fuel + 1) =
      getRandomIntFuel bytes r (k + bytesNeeded r) fuel := by
  rw [getRandomIntFuel]
  rw [jsVal_eq_beValue hsmall]
  rw [if_neg]
  rw [threshold_eq]
  exact_mod_cast hrej

theorem getRandomIntFuel_range {r : ℕ} (hr : 1 ≤ r)
    (hsmall : 256 ^ bytesNeeded r ≤ 2 ^ 31) (bytes : ℕ → ℕ) (k fuel : ℕ)
    (x : ℤ) (h : getRandomIntFuel bytes r k fuel = some x) :
    0 ≤ x ∧ x < r := by
  induction fuel generalizing k with
  | zero => simp [getRandomIntFuel] at h
  | succ fuel ih =>
    by_cases hacc : beValue bytes k (bytesNeeded r) < maxValue r / r * r
    · rw [getRandomIntFuel_accept hsmall bytes k fuel hacc] at h
      have hx : x = ((beValue bytes k (bytesNeeded r) % r : ℕ) : ℤ) := by
        exact (Option.some_injective _ h).symm
      subst hx
      have hmod : beValue bytes k (bytesNeeded r) % r < r :=
        Nat.mod_lt _ (by omega)
      constructor
      · positivity
      · exact_mod_cast hmod
    · rw [getRandomIntFuel_reject hsmall bytes k fuel hacc] at h
      exact ih _ h

theorem filter_mod_eq_image {r j : ℕ} (hj : j < r) (m : ℕ) :
    (Finset.range (m * r)).filter (fun v => v % r = j) =
      (Finset.range m).image (fun i => i * r + j) := by
  ext v
  simp only [Finset.mem_filter, Finset.mem_range, Finset.mem_image]
  constructor
  · rintro ⟨hv, hmod⟩
    refine ⟨v / r, ?_, ?_⟩
    · rw [Nat.div_lt_iff_lt_mul (by omega)]
      exact hv
    · have h := Nat.div_add_mod v r
      rw [Nat.mul_comm] at h
      omega
  · rintro ⟨i, hi, rfl⟩
    constructor
    · have h1 : i * r + j < (i + 1) * r := by
        rw [add_mul]
        omega
      have h2 : (i + 1) * r ≤ m * r := Nat.mul_le_mul_right _ (by omega)
      omega
    · rw [Nat.add_comm, Nat.add_mul_mod_self_right]
      exact Nat.mod_eq_of_lt hj

theorem filter_mod_card {r j : ℕ} (hj : j < r) (m : ℕ) :
    ((Finset.range (m * r)).filter (fun v => v % r = j)).card = m := by
  rw [filter_mod_eq_image hj]
  rw [Finset.card_image_of_injective _ (fun a b hab => by
    have : a * r = b * r := by omega
    exact Nat.eq_of_mul_eq_mul_right (by omega) this)]
  exact Finset.card_range m

theorem accepted_fiber_card {r j : ℕ} (hj : j < r) :
    ((Finset.range (maxValue r)).filter
        (fun v => v < maxValue r / r * r ∧ v % r = j)).card =
      maxValue r / r := by
  have hle : maxValue r / r * r ≤ maxValue r := Nat.div_mul_le_self _ _
  have hsplit : (Finset.range (maxValue r)).filter
        (fun v => v < maxValue r / r * r ∧ v % r = j) =
      (Finset.range (maxValue r / r * r)).filter (fun v => v % r = j) := by
    ext v
    simp only [Finset.mem_filter, Finset.mem_range]
    constructor
    · rintro ⟨_, h2, h3⟩
      exact ⟨h2, h3⟩
    · rintro ⟨h1, h2⟩
      exact ⟨by omega, h1, h2⟩
  rw [hsplit, filter_mod_card hj]

theorem getD_mem_of_lt (l : List Char) (n : ℕ) (d : Char)
    (h : n < l.length) : l.getD n d ∈ l := by
  induction l generalizing n with
  | nil => simp at h
  | cons a t ih =>
    cases n with
    | zero => simp
    | succ n =>
      simp only [List.getD_cons_succ]
      exact List.mem_cons_of_mem a (ih n (by simpa using h))

theorem countP_set (p : Char → Bool) (l : List Char) (n : ℕ) (x : Char)
    (hn : n < l.length) :
    (l.set n x).countP p + (if p (l.getD n 'a') then 1 else 0) =
      l.countP p + (if p x then 1 else 0) := by
  induction l generalizing n with
  | nil => simp at hn
  | cons a t ih =>
    cases n with
    | zero =>
      simp only [List.set_cons_zero, List.countP_cons, List.getD_cons_zero]
      ring
    | succ n =>
      simp only [List.set_cons_succ, List.countP_cons, List.getD_cons_succ]
      have h := ih n (by simpa using hn)
      omega

theorem getD_set_self (l : List Char) (i : ℕ) (b d : Char)
    (h : i < l.length) : (l.set i b).getD i d = b := by
  induction l generalizing i with
  | nil => simp at h
  | cons a t ih =>
    cases i with
    | zero => simp
    | succ i =>
      simp only [List.set_cons_succ, List.getD_cons_succ]
      exact ih i (by simpa using h)

theorem getD_set_ne (l : List Char) {i j : ℕ} (hij : i ≠ j) (b d : Char) :
    (l.set i b).getD j d = l.getD j d := by
  induction l generalizing i j with
  | nil => simp [List.set]
  | cons a t ih =>
    cases i with
    | zero =>
      cases j with
      | zero => exact absurd rfl hij
      | succ j => simp
    | succ i =>
      cases j with
      | zero => simp
      | succ j =>
        simp only [List.set_cons_succ, List.getD_cons_succ]
        exact ih (by omega) 

theorem listSwap_countP (p : Char → Bool) (l : List Char) (i j : ℕ)
    (hi : i < l.length) (hj : j < l.length) :
    (listSwap l i j).countP p = l.countP p := by
  unfold listSwap
  have h1 := countP_set p l i (l.getD j 'a') hi
  have h2 := countP_set p (l.set i (l.getD j 'a')) j (l.getD i 'a')
    (by rw [List.length_set]; exact hj)
  by_cases hij : i = j
  · subst hij
    rw [getD_set_self l i _ 'a' hi] at h2
    omega
  · rw [getD_set_ne l hij] at h2
    omega

theorem listSwap_length (l : List Char) (i j : ℕ) :
    (listSwap l i j).length = l.length := by
  simp [listSwap]

theorem shuffleGo_countP (p : Char → Bool) (s : ℕ → ℕ) :
    ∀ (i : ℕ) (k : ℕ) (l : List Char), i < l.length →
      (shuffleGo s k i l).countP p = l.countP p := by
  intro i
  induction i with
  | zero =>
    intro k l _
    rfl
  | succ i ih =>
    intro k l hi
    rw [shuffleGo]
    have hj : s k % (i + 2) < l.length := by
      have := Nat.mod_lt (s k) (y := i + 2) (by omega)
      omega
    rw [ih (k + 1) _ (by rw [listSwap_length]; omega)]
    exact listSwap_countP p l (i + 1) (s k % (i + 2)) hi hj

theorem fisherYates_countP (p : Char → Bool) (s : ℕ → ℕ) (k : ℕ)
    (l : List Char) : (fisherYates s k l).countP p = l.countP p := by
  unfold fisherYates
  rcases l with _ | ⟨a, t⟩
  · rfl
  · exact shuffleGo_countP p s _ k _ (by simp)

theorem fisherYates_length (s : ℕ → ℕ) (k : ℕ) (l : List Char) :
    (fisherYates s k l).length = l.length := by
  have hgo : ∀ (i : ℕ) (k : ℕ) (l : List Char),
      (shuffleGo s k i l).length = l.length := by
    intro i
    induction i with
    | zero => intro k l; rfl
    | succ i ih =>
      intro k l
      rw [shuffleGo, ih, listSwap_length]
  exact hgo _ k l

theorem removeSimilar_idem (l : List Char) :
    removeSimilar (removeSimilar l) = removeSimilar l := by
  unfold removeSimilar
  rw [List.filter_filter]
  apply List.filter_congr
  intro c _
  simp

theorem pickChar_mem (g : Generator) (src : List Char) (x : ℕ)
    (h : src ≠ []) : pickChar g src x ∈ src := by
  have hlen : 0 < src.length := List.length_pos.mpr h
  unfold pickChar
  by_cases he : excludeSimilarRes g.options
  · rw [if_pos he]
    by_cases hf : (removeSimilar src).length = 0
    · rw [if_pos hf]
      exact getD_mem_of_lt src _ 'a' (Nat.mod_lt _ hlen)
    · rw [if_neg hf]
      have : (removeSimilar src).getD (x % (removeSimilar src).length) 'a'
          ∈ removeSimilar src :=
        getD_mem_of_lt _ _ 'a' (Nat.mod_lt _ (by omega))
      exact List.mem_of_mem_filter this
  · rw [if_neg he]
    simp only [Bool.false_eq_true] at he
    rw [if_neg (by omega)]
    exact getD_mem_of_lt src _ 'a' (Nat.mod_lt _ hlen)

theorem mem_removeSimilar_not_similar {c : Char} {l : List Char}
    (h : c ∈ removeSimilar l) : c ∉ SIMILAR := by
  unfold removeSimilar at h
  have h2 := List.of_mem_filter h
  intro hmem
  have h3 : SIMILAR.contains c = true := List.elem_iff.mpr hmem
  rw [h3] at h2
  simp at h2

theorem pickChar_not_similar (g : Generator) (src : List Char) (x : ℕ)
    (he : excludeSimilarRes g.options = true)
    (hne : removeSimilar src ≠ []) : pickChar g src x ∉ SIMILAR := by
  have hlen : 0 < (removeSimilar src).length := List.length_pos.mpr hne
  unfold pickChar
  rw [he]
  simp only [if_true]
  rw [if_neg (by omega)]
  exact mem_removeSimilar_not_similar
    (getD_mem_of_lt _ _ 'a' (Nat.mod_lt _ hlen))

theorem pickN_length (g : Generator) (s : ℕ → ℕ) (k : ℕ) (src : List Char)
    (n : ℕ) : (pickN g s k src n).length = n := by
  simp [pickN]

theorem pickN_mem (g : Generator) (s : ℕ → ℕ) (k : ℕ) (src : List Char)
    (n : ℕ) (h : src ≠ []) : ∀ c ∈ pickN g s k src n, c ∈ src := by
  intro c hc
  unfold pickN at hc
  obtain ⟨i, _, rfl⟩ := List.mem_map.mp hc
  exact pickChar_mem g src _ h

theorem pickN_countP_full (g : Generator) (s : ℕ → ℕ) (k : ℕ)
    (src : List Char) (n : ℕ) (p : Char → Bool) (h : src ≠ [])
    (hall : ∀ c ∈ src, p c) : (pickN g s k src n).countP p = n := by
  have hmem : ∀ c ∈ pickN g s k src n, p c :=
    fun c hc => hall c (pickN_mem g s k src n h c hc)
  exact (List.countP_eq_length.mpr hmem).trans (pickN_length g s k src n)

theorem requiredChars_length (g : Generator) (s : ℕ → ℕ) :
    (requiredChars g s).length = effSum g.options := by
  simp [requiredChars, pickN_length, effSum]
  omega

theorem construct_ok_inv {o : PasswordOptions} {g : Generator}
    (h : construct o = .ok g) :
    g.options = mergePreset o ∧
      resolveCore (mergePreset o) =
        .ok ⟨g.mode, g.length, g.charset, g.isSpecial⟩ := by
  unfold construct at h
  cases hres : resolveCore (mergePreset o) with
  | error e => rw [hres] at h; exact absurd h (by simp [Except.map])
  | ok c =>
    rw [hres] at h
    simp only [Except.map, Except.ok.injEq] at h
    subst h
    exact ⟨rfl, rfl⟩

theorem resolveCore_mode {o : PasswordOptions} {c : Core}
    (h : resolveCore o = .ok c) : c.mode = resolveMode o.mode := by
  unfold resolveCore at h
  repeat' split at h
  all_goals first
    | (simp only [Except.ok.injEq] at h
       rw [← h])
    | exact absurd h (by simp)

theorem resolveCore_random_inv {o : PasswordOptions} {c : Core}
    (hm : resolveMode o.mode = "random") (h : resolveCore o = .ok c) :
    c.charset = resolvedCharset o ∧
      (excludeSimilarRes o = true → c.charset ≠ []) ∧
      ∃ L : ℚ, o.length.getD (.num 12) = .num L ∧ 8 ≤ L ∧ L ≤ 128 ∧
        c.length = .num ⌊L⌋ := by
  unfold resolveCore at h
  rw [if_pos hm] at h
  split at h
  · exact absurd h (by simp)
  · rename_i hlen
    cases hL : o.length.getD (.num 12) with
    | nan => rw [hL] at hlen; simp [JsNum.isNaN] at hlen
    | num L =>
      rw [hL] at hlen
      simp only [JsNum.isNaN, JsNum.ltb, Bool.or_eq_true, decide_eq_true_eq,
        not_or] at hlen
      have hl8 : ¬ L < 8 := by tauto
      have hl128 : ¬ (128 : ℚ) < L := by tauto
      split at h
      · rename_i hexcl
        split at h
        · exact absurd h (by simp)
        · rename_i hne
          simp only [Except.ok.injEq] at h
          subst h
          exact ⟨by simp [resolvedCharset, hexcl],
            fun _ hnil =>
              hne (by rw [show removeSimilar (baseCharsetOf o) = [] from hnil]; rfl),
            L, rfl, not_lt.mp hl8, not_lt.mp hl128, by rw [hL]; rfl⟩
      · rename_i hexcl
        simp only [Except.ok.injEq] at h
        subst h
        exact ⟨by simp [resolvedCharset, hexcl], fun hx => absurd hx hexcl,
          L, rfl, not_lt.mp hl8, not_lt.mp hl128, by rw [hL]; rfl⟩

theorem resolveCore_passphrase_inv {o : PasswordOptions} {c : Core}
    (hm : ¬ resolveMode o.mode = "random") (h : resolveCore o = .ok c) :
    c.length = o.length.getD (.num 5) ∧ c.charset = [] ∧
      (o.length.getD (.num 5)).ltb (.num 3) = false ∧
      JsNum.ltb (.num 20) (o.length.getD (.num 5)) = false := by
  unfold resolveCore at h
  rw [if_neg hm] at h
  split at h
  · exact absurd h (by simp)
  · rename_i hlen
    simp only [Bool.or_eq_true, not_or, Bool.not_eq_true] at hlen
    simp only [Except.ok.injEq] at h
    subst h
    exact ⟨rfl, rfl, hlen.1, hlen.2⟩

theorem generateRandomChars_isOk (g : Generator) (s : ℕ → ℕ) :
    (generateRandomChars g s).isOk =
      !JsNum.natGtb (effSum g.options) g.length := by
  unfold generateRandomChars
  simp only [requiredChars_length]
  cases hb : JsNum.natGtb (effSum g.options) g.length
  · simp [Except.isOk, Except.toBool]
  · simp [Except.isOk, Except.toBool]

theorem generateRandomChars_ok_inv {g : Generator} {s : ℕ → ℕ}
    {cs : List Char} (h : generateRandomChars g s = .ok cs) :
    cs = fisherYates s (effSum g.options + (fillChars g s).length)
        (requiredChars g s ++ fillChars g s) ∧
      JsNum.natGtb (effSum g.options) g.length = false := by
  unfold generateRandomChars at h
  simp only [requiredChars_length] at h
  split at h
  · exact absurd h (by simp)
  · rename_i hb
    simp only [Except.ok.injEq] at h
    exact ⟨h.symm, by simpa using hb⟩

theorem except_isOk_map {α β : Type} (f : α → β) (e : Except String α) :
    (Except.map f e).isOk = e.isOk := by
  cases e <;> rfl

theorem mergePreset_separator (o : PasswordOptions) :
    (mergePreset o).separator = o.separator := by
  unfold mergePreset
  cases hp : o.preset with
  | none => rfl
  | some name =>
    by_cases h0 : name = ""
    · simp [h0]
    · cases hP : PRESETS name <;> simp [h0, hP]

theorem mergePreset_none (o : PasswordOptions) (h : o.preset = none) :
    mergePreset o = o := by
  unfold mergePreset
  rw [h]

theorem resolveCore_ext (o₁ o₂ : PasswordOptions) (h1 : o₁.mode = o₂.mode)
    (h2 : o₁.length = o₂.length) (h3 : o₁.isSpecial = o₂.isSpecial)
    (h4 : o₁.customCharset = o₂.customCharset)
    (h5 : o₁.excludeSimilar = o₂.excludeSimilar) :
    resolveCore o₁ = resolveCore o₂ := by
  unfold resolveCore baseCharsetOf defaultAlphabet resolveMode
    excludeSimilarRes isSpecialRes
  rw [h1, h2, h3, h4, h5]

/-- C1 (counterexample): a request with explicit `length: 12` and preset
    `wifi` resolves to the preset's length 16, not the request's 12 —
    the claim that explicitly supplied fields win is false. -/
theorem C1_counterexample :
    (construct wifiConflictOpts).toOption.map Generator.length =
        some (.num 16) ∧
      (construct wifiConflictOpts).toOption.map Generator.length ≠
        some (.num 12) := by
  decide

/-- C1 (amended): for every request naming any preset of the fixed table
    (`wifi`, `enterprise`, `legacy`, `ultra`), each field the preset
    defines resolves to the preset's value — overriding an explicitly
    supplied request value — while each field the preset leaves undefined
    keeps the request's value; every other request field is untouched,
    and the constructed generator keeps exactly these merged options. -/
theorem C1_preset_overrides_explicit (o : PasswordOptions) (name : String)
    (p : Preset) (hp : o.preset = some name) (hP : PRESETS name = some p) :
    ((∀ v, p.length = some v → (mergePreset o).length = some v) ∧
        (p.length = none → (mergePreset o).length = o.length)) ∧
      ((∀ v, p.isSpecial = some v → (mergePreset o).isSpecial = some v) ∧
        (p.isSpecial = none → (mergePreset o).isSpecial = o.isSpecial)) ∧
      ((∀ v, p.excludeSimilar = some v →
          (mergePreset o).excludeSimilar = some v) ∧
        (p.excludeSimilar = none →
          (mergePreset o).excludeSimilar = o.excludeSimilar)) ∧
      ((∀ v, p.minSpecial = some v → (mergePreset o).minSpecial = some v) ∧
        (p.minSpecial = none → (mergePreset o).minSpecial = o.minSpecial)) ∧
      ((∀ v, p.minDigit = some v → (mergePreset o).minDigit = some v) ∧
        (p.minDigit = none → (mergePreset o).minDigit = o.minDigit)) ∧
      ((∀ v, p.minUpper = some v → (mergePreset o).minUpper = some v) ∧
        (p.minUpper = none → (mergePreset o).minUpper = o.minUpper)) ∧
      ((mergePreset o).minLower = o.minLower ∧
        (mergePreset o).mode = o.mode ∧
        (mergePreset o).customCharset = o.customCharset ∧
        (mergePreset o).separator = o.separator ∧
        (mergePreset o).wordlist = o.wordlist) ∧
      (∀ g, construct o = .ok g → g.options = mergePreset o) := by
  have hemp : PRESETS "" = none := rfl
  have hne : name ≠ "" := by
    intro h0
    rw [h0, hemp] at hP
    exact Option.noConfusion hP
  have hm : mergePreset o =
      { o with
          length := p.length.or o.length
          isSpecial := p.isSpecial.or o.isSpecial
          excludeSimilar := p.excludeSimilar.or o.excludeSimilar
          minSpecial := p.minSpecial.or o.minSpecial
          minDigit := p.minDigit.or o.minDigit
          minUpper := p.minUpper.or o.minUpper } := by
    simp only [mergePreset, hp]
    rw [if_neg hne]
    simp only [hP]
  have hLen : (mergePreset o).length = p.length.or o.length := by rw [hm]
  have hIs : (mergePreset o).isSpecial = p.isSpecial.or o.isSpecial := by
    rw [hm]
  have hEx : (mergePreset o).excludeSimilar =
      p.excludeSimilar.or o.excludeSimilar := by rw [hm]
  have hMS : (mergePreset o).minSpecial = p.minSpecial.or o.minSpecial := by
    rw [hm]
  have hMD : (mergePreset o).minDigit = p.minDigit.or o.minDigit := by
    rw [hm]
  have hMU : (mergePreset o).minUpper = p.minUpper.or o.minUpper := by
    rw [hm]
  refine ⟨⟨fun v hv => by rw [hLen, hv]; rfl, fun hv => by rw [hLen, hv]; rfl⟩,
    ⟨fun v hv => by rw [hIs, hv]; rfl, fun hv => by rw [hIs, hv]; rfl⟩,
    ⟨fun v hv => by rw [hEx, hv]; rfl, fun hv => by rw [hEx, hv]; rfl⟩,
    ⟨fun v hv => by rw [hMS, hv]; rfl, fun hv => by rw [hMS, hv]; rfl⟩,
    ⟨fun v hv => by rw [hMD, hv]; rfl, fun hv => by rw [hMD, hv]; rfl⟩,
    ⟨fun v hv => by rw [hMU, hv]; rfl, fun hv => by rw [hMU, hv]; rfl⟩,
    ⟨by rw [hm], by rw [hm], by rw [hm], by rw [hm], by rw [hm]⟩,
    fun g hg => (construct_ok_inv hg).1⟩

theorem C1_preset_overrides_explicit_witness :
    (mergePreset wifiConflictOpts).length = some (.num 16) ∧
      (mergePreset enterpriseConflictOpts).minDigit = some 2 :=
  ⟨((C1_preset_overrides_explicit wifiConflictOpts ("wifi") wifiPreset rfl
      rfl).1).1 (.num 16) rfl,
    ((C1_preset_overrides_explicit enterpriseConflictOpts ("enterprise")
      enterprisePreset rfl rfl).2.2.2.2.1).1 2 rfl⟩

/-- C7 (counterexample): a passphrase request with `length: NaN` is
    accepted by the constructor (`NaN < 3` and `NaN > 20` are both
    false), contradicting the claim that NaN fails with an
    invalid-passphrase-length error. -/
theorem C7_counterexample : (construct nanPassphraseOpts).isOk = true := by
  decide

/-- C7 (amended): random-mode numeric lengths 8 and 128 are accepted and
    7 and 129 rejected with the invalid-length error; passphrase word
    counts 3 and 20 are accepted and 2 and 21 rejected with the
    invalid-passphrase-length error; but the passphrase check is a pure
    range check — a non-integer in range (7/2) and NaN are accepted. -/
theorem C7_length_boundaries :
    (construct { length := some (.num 8) }).isOk = true ∧
      (construct { length := some (.num 128) }).isOk = true ∧
      construct { length := some (.num 7) } =
        .error "Password length must be an integer between 8 and 128 characters." ∧
      construct { length := some (.num 129) } =
        .error "Password length must be an integer between 8 and 128 characters." ∧
      (construct { mode := some ("passphrase"), length := some (.num 3) }).isOk = true ∧
      (construct { mode := some ("passphrase"), length := some (.num 20) }).isOk = true ∧
      construct { mode := some ("passphrase"), length := some (.num 2) } =
        .error "Passphrase length must be between 3 and 20 words." ∧
      construct { mode := some ("passphrase"), length := some (.num 21) } =
        .error "Passphrase length must be between 3 and 20 words." ∧
      (construct { mode := some ("passphrase"), length := some (.num (mkRat 7 2)) }).isOk = true ∧
      (construct nanPassphraseOpts).isOk = true := by
  decide

/-- C8 (counterexample): the library-level resolver accepts a request
    whose preset name is not in the table — `PRESETS["bogus"]` is
    `undefined`, the spread is a no-op, and construction succeeds. -/
theorem C8_counterexample : (construct bogusPresetOpts).isOk = true := by
  decide

/-- C8 (amended): for every request naming a preset outside the fixed
    table, the resolver ignores the preset: the merged options equal the
    request, and construction succeeds or fails exactly as it would with
    no preset at all (the CLI wrapper, not the library, rejects unknown
    names). -/
theorem C8_unknown_preset_ignored (o : PasswordOptions) (n : String)
    (hp : o.preset = some n) (hn : PRESETS n = none) :
    mergePreset o = o ∧
      (construct o).isOk = (construct { o with preset := none }).isOk := by
  have hmerge : mergePreset o = o := by
    by_cases h0 : n = ""
    · simp [mergePreset, hp, h0]
    · simp [mergePreset, hp, h0, hn]
  refine ⟨hmerge, ?_⟩
  simp only [construct, except_isOk_map]
  rw [hmerge, mergePreset_none { o with preset := none } rfl]
  exact congrArg Except.isOk
    (resolveCore_ext o { o with preset := none } rfl rfl rfl rfl rfl)

theorem C8_unknown_preset_ignored_witness :
    mergePreset bogusPresetOpts = bogusPresetOpts ∧
      (construct bogusPresetOpts).isOk =
        (construct { bogusPresetOpts with preset := none }).isOk :=
  C8_unknown_preset_ignored bogusPresetOpts ("bogus") rfl rfl

/-- C9 (counterexample): a request carrying an empty wordlist array does
    not fall back to the default wordlist — every JavaScript array is
    truthy, so `getWordlist` returns the empty array and the first draw
    of `generatePassphrase` throws (`new Uint8Array(-Infinity)`). -/
theorem C9_counterexample :
    getWordlist emptyWordlistOpts DEFAULT_WORDLIST = [] ∧
      DEFAULT_WORDLIST.length = 2052 ∧
      (construct emptyWordlistOpts).toOption.map
          (fun g => (generatePassphraseWords g (fun _ => 0)).isOk) =
        some false := by
  refine ⟨rfl, ?_, by decide⟩
  simp [DEFAULT_WORDLIST]

/-- C9 (amended): the word source is the caller's array whenever the
    `wordlist` field is present — empty or not — and the built-in
    2052-entry wordlist only when the field is absent. -/
theorem C9_wordlist_resolution (o : PasswordOptions) (w : List String) :
    (o.wordlist = some w → getWordlist o DEFAULT_WORDLIST = w) ∧
      (o.wordlist = none →
        getWordlist o DEFAULT_WORDLIST = DEFAULT_WORDLIST) ∧
      DEFAULT_WORDLIST.length = 2052 := by
  refine ⟨fun h => ?_, fun h => ?_, by simp [DEFAULT_WORDLIST]⟩
  · rw [getWordlist, h]
  · rw [getWordlist, h]

theorem C9_wordlist_resolution_witness :
    getWordlist { wordlist := some ([appleWord]) } DEFAULT_WORDLIST =
      [appleWord] :=
  (C9_wordlist_resolution { wordlist := some ([appleWord]) } [appleWord]).1
    rfl

theorem loopCount_intCast (m : ℤ) (hm : 0 ≤ m) :
    JsNum.loopCount (.num (m : ℚ)) = m.toNat := by
  show (if (m : ℚ) ≤ 0 then 0 else ⌈(m : ℚ)⌉.toNat) = m.toNat
  by_cases h : (m : ℚ) ≤ 0
  · rw [if_pos h]
    have h0 : m ≤ 0 := by exact_mod_cast h
    omega
  · rw [if_neg h, Int.ceil_intCast]

theorem natGtb_intCast (n : ℕ) (m : ℤ) (hm : 0 ≤ m) :
    (JsNum.natGtb n (.num (m : ℚ)) = false ↔ n ≤ m.toNat) := by
  show (decide ((n : ℚ) > (m : ℚ)) = false) ↔ n ≤ m.toNat
  rw [decide_eq_false_iff_not, not_lt]
  constructor
  · intro h
    have h2 : (n : ℤ) ≤ m := by exact_mod_cast h
    omega
  · intro h
    have h2 : (n : ℤ) ≤ m := by omega
    exact_mod_cast h2

/-- C2 (counterexample): a generator whose minimums exceed its length is
    constructed without error, and the MinimumsExceedLength failure only
    surfaces when `generateFull` samples — so not every configuration
    error is raised during resolution, and sampling is not total. -/
theorem C2_counterexample :
    (construct minsExceedOpts).isOk = true ∧
      (construct minsExceedOpts).toOption.map
          (fun g => generateRandomChars g (fun _ => 0)) =
        some (.error
          "Minimum requirements exceed the requested password length.") := by
  decide

/-- C2 (amended): for a random-mode generator, construction never checks
    the minimums; each `generateFull` call re-runs the guarantee step and
    throws exactly when the summed effective minimums exceed the resolved
    length, and succeeds otherwise — all other configuration errors are
    raised at construction. -/
theorem C2_minimums_checked_at_sampling (o : PasswordOptions)
    (g : Generator) (s : ℕ → ℕ) (hg : construct o = .ok g)
    (hm : g.mode = "random") :
    ((generateRandomChars g s).isOk = true ↔
        effSum g.options ≤ g.length.loopCount) ∧
      generateFull g s = (generateRandomChars g s).map (mkRandomResult g) := by
  obtain ⟨hopt, hcore⟩ := construct_ok_inv hg
  have hmode : g.mode = resolveMode (mergePreset o).mode :=
    resolveCore_mode hcore
  have hrand : resolveMode (mergePreset o).mode = "random" := by
    rw [← hmode]
    exact hm
  obtain ⟨-, -, L, hL, h8, h128, hlen⟩ := resolveCore_random_inv hrand hcore
  have hlen' : g.length = .num ((⌊L⌋ : ℤ) : ℚ) := hlen
  have h8' : (8 : ℤ) ≤ ⌊L⌋ := by
    rw [Int.le_floor]
    exact_mod_cast h8
  constructor
  · rw [generateRandomChars_isOk, hlen', Bool.not_eq_eq_eq_not, Bool.not_true,
      loopCount_intCast _ (by omega), natGtb_intCast _ _ (by omega)]
  · rw [generateFull, if_neg (by rw [hm]; exact fun hc => by simp at hc)]
    rfl

theorem C2_minimums_checked_at_sampling_witness :
    construct ({} : PasswordOptions) = .ok defaultGen ∧
      ((generateRandomChars defaultGen (fun _ => 0)).isOk = true ↔
        effSum defaultGen.options ≤ defaultGen.length.loopCount) :=
  ⟨by decide,
    (C2_minimums_checked_at_sampling {} defaultGen (fun _ => 0) (by decide)
      rfl).1⟩

/-- C6: for every valid request, the entropy of the result is
    `length * log2(size of the resolved alphabet)` in random mode and
    `wordCount * log2(size of the resolved word source)` in passphrase
    mode, rounded to two decimals — computed from the full resolved
    alphabet regardless of minimums or similar-character exclusion. -/
theorem C6_entropy_formula (o : PasswordOptions) (g : Generator)
    (s : ℕ → ℕ) (q : ℚ) (res : PasswordResult) (_hg : construct o = .ok g)
    (hq : g.length = .num q) :
    (g.mode ≠ "passphrase" → generateFull g s = .ok res →
        res.entropy =
          some (round2 ((q : ℝ) * Real.logb 2 (g.charset.length)))) ∧
      (g.mode = "passphrase" → generateFull g s = .ok res →
        res.entropy = some (round2 ((q : ℝ) *
          Real.logb 2 ((getWordlist g.options DEFAULT_WORDLIST).length)))) := by
  constructor
  · intro hmode hres
    rw [generateFull, if_neg hmode, generateRandom] at hres
    cases hcs : generateRandomChars g s with
    | error e =>
      rw [hcs] at hres
      exact absurd hres (by simp [Except.map])
    | ok cs =>
      rw [hcs] at hres
      simp only [Except.map, Except.ok.injEq] at hres
      subst hres
      unfold mkRandomResult calculateEntropy
      rw [hq]
      rfl
  · intro hmode hres
    rw [generateFull, if_pos hmode, generatePassphrase] at hres
    cases hws : generatePassphraseWords g s with
    | error e =>
      rw [hws] at hres
      exact absurd hres (by simp [Except.map])
    | ok ws =>
      rw [hws] at hres
      simp only [Except.map, Except.ok.injEq] at hres
      subst hres
      unfold mkPassphraseResult calculatePassphraseEntropy
      rw [hq]
      rfl

theorem C6_entropy_formula_witness :
    construct ({} : PasswordOptions) = .ok defaultGen ∧
      (mkRandomResult defaultGen c6Chars).entropy =
        some (round2 ((12 : ℚ) *
          Real.logb 2 (defaultGen.charset.length))) := by
  have hcs : generateRandomChars defaultGen (fun _ => 0) = .ok c6Chars := by
    decide
  have hres : generateFull defaultGen (fun _ => 0) =
      .ok (mkRandomResult defaultGen c6Chars) := by
    rw [generateFull, if_neg (by decide), generateRandom, hcs]
    rfl
  exact ⟨by decide,
    (C6_entropy_formula {} defaultGen (fun _ => 0) 12
      (mkRandomResult defaultGen c6Chars) (by decide) rfl).1 (by decide) hres⟩

/-- C4: whenever random-mode generation succeeds, the password contains
    at least the effective minimum number of characters of each of the
    four categories, where each effective minimum is the requested
    minimum raised to at least 1 exactly when no (truthy) custom
    alphabet is supplied and special characters are enabled; in that
    default situation every category is represented at least once, and
    the final Fisher-Yates shuffle never changes any category count. -/
theorem C4_category_minimums (o : PasswordOptions) (g : Generator)
    (s : ℕ → ℕ) (cs : List Char) (_hg : construct o = .ok g)
    (_hm : g.mode = "random") (hcs : generateRandomChars g s = .ok cs) :
    (effMinLower g.options ≤ cs.countP isLowerChar ∧
        effMinUpper g.options ≤ cs.countP isUpperChar ∧
        effMinDigit g.options ≤ cs.countP isDigitChar ∧
        effMinSpecial g.options ≤ cs.countP isSpecialChar) ∧
      ((noCustomCharset g.options && isSpecialRes g.options) = true →
        1 ≤ cs.countP isLowerChar ∧ 1 ≤ cs.countP isUpperChar ∧
          1 ≤ cs.countP isDigitChar ∧ 1 ≤ cs.countP isSpecialChar) ∧
      (∀ (p : Char → Bool) (k : ℕ) (l : List Char),
        (fisherYates s k l).countP p = l.countP p) := by
  obtain ⟨hcseq, -⟩ := generateRandomChars_ok_inv hcs
  subst hcseq
  have hL : (requiredChars g s ++ fillChars g s).countP isLowerChar ≥
      effMinLower g.options := by
    unfold requiredChars
    simp only [List.countP_append]
    have h1 := pickN_countP_full g s 0 LOWER (effMinLower g.options)
      isLowerChar (by decide) (by decide)
    omega
  have hU : (requiredChars g s ++ fillChars g s).countP isUpperChar ≥
      effMinUpper g.options := by
    unfold requiredChars
    simp only [List.countP_append]
    have h1 := pickN_countP_full g s (effMinLower g.options) UPPER
      (effMinUpper g.options) isUpperChar (by decide) (by decide)
    omega
  have hD : (requiredChars g s ++ fillChars g s).countP isDigitChar ≥
      effMinDigit g.options := by
    unfold requiredChars
    simp only [List.countP_append]
    have h1 := pickN_countP_full g s
      (effMinLower g.options + effMinUpper g.options) DIGITS
      (effMinDigit g.options) isDigitChar (by decide) (by decide)
    omega
  have hS : (requiredChars g s ++ fillChars g s).countP isSpecialChar ≥
      effMinSpecial g.options := by
    unfold requiredChars
    simp only [List.countP_append]
    have h1 := pickN_countP_full g s
      (effMinLower g.options + effMinUpper g.options + effMinDigit g.options)
      SPECIAL (effMinSpecial g.options) isSpecialChar (by decide) (by decide)
    omega
  have hperm := fun (p : Char → Bool) =>
    fisherYates_countP p s (effSum g.options + (fillChars g s).length)
      (requiredChars g s ++ fillChars g s)
  refine ⟨⟨?_, ?_, ?_, ?_⟩, ?_, fun p k l => fisherYates_countP p s k l⟩
  · rw [hperm isLowerChar]; exact hL
  · rw [hperm isUpperChar]; exact hU
  · rw [hperm isDigitChar]; exact hD
  · rw [hperm isSpecialChar]; exact hS
  · intro hflag
    have e1 : 1 ≤ effMinLower g.options := by
      unfold effMinLower
      rw [if_pos hflag]
      omega
    have e2 : 1 ≤ effMinUpper g.options := by
      unfold effMinUpper
      rw [if_pos hflag]
      omega
    have e3 : 1 ≤ effMinDigit g.options := by
      unfold effMinDigit
      rw [if_pos hflag]
      omega
    have e4 : 1 ≤ effMinSpecial g.options := by
      unfold effMinSpecial
      rw [if_pos hflag]
      omega
    rw [hperm isLowerChar, hperm isUpperChar, hperm isDigitChar,
      hperm isSpecialChar]
    exact ⟨le_trans e1 hL, le_trans e2 hU, le_trans e3 hD, le_trans e4 hS⟩

theorem C4_category_minimums_witness :
    construct ({} : PasswordOptions) = .ok defaultGen ∧
      effMinLower defaultGen.options ≤ c6Chars.countP isLowerChar ∧
      effMinDigit defaultGen.options ≤ c6Chars.countP isDigitChar :=
  ⟨by decide,
    ((C4_category_minimums {} defaultGen (fun _ => 0) c6Chars (by decide)
      rfl (by decide)).1).1,
    ((C4_category_minimums {} defaultGen (fun _ => 0) c6Chars (by decide)
      rfl (by decide)).1).2.2.1⟩

/-- C5: with similar-character exclusion active, a successfully generated
    random-mode password never contains any of `{i,l,1,L,o,0,O}` — for
    any length, custom alphabet, or minimums — because each fixed
    category keeps a non-empty filtered sub-alphabet (so the unfiltered
    fallback of `pick` never fires for them) and the resolved charset is
    already filtered and non-empty. -/
theorem C5_exclude_similar (o : PasswordOptions) (g : Generator)
    (s : ℕ → ℕ) (cs : List Char) (hg : construct o = .ok g)
    (hm : g.mode = "random") (he : excludeSimilarRes g.options = true)
    (hcs : generateRandomChars g s = .ok cs) :
    (∀ c ∈ cs, c ∉ SIMILAR) ∧
      removeSimilar LOWER ≠ [] ∧ removeSimilar UPPER ≠ [] ∧
        removeSimilar DIGITS ≠ [] ∧ removeSimilar SPECIAL ≠ [] := by
  obtain ⟨hopt, hcore⟩ := construct_ok_inv hg
  have hmode : g.mode = resolveMode (mergePreset o).mode :=
    resolveCore_mode hcore
  have hrand : resolveMode (mergePreset o).mode = "random" := by
    rw [← hmode]
    exact hm
  obtain ⟨hchar, hnonempty, -⟩ := resolveCore_random_inv hrand hcore
  have hchar' : g.charset = resolvedCharset (mergePreset o) := hchar
  have he' : excludeSimilarRes (mergePreset o) = true := by
    rw [← hopt]
    exact he
  have hidem : removeSimilar g.charset = g.charset := by
    rw [hchar']
    unfold resolvedCharset
    rw [if_pos he']
    exact removeSimilar_idem _
  have hne : removeSimilar g.charset ≠ [] := by
    rw [hidem]
    exact hnonempty he'
  obtain ⟨hcseq, -⟩ := generateRandomChars_ok_inv hcs
  subst hcseq
  have hsim : ∀ c ∈ requiredChars g s ++ fillChars g s, c ∉ SIMILAR := by
    intro c hc
    rcases List.mem_append.mp hc with hreq | hfill
    · unfold requiredChars at hreq
      rcases List.mem_append.mp hreq with h123 | h4
      · rcases List.mem_append.mp h123 with h12 | h3
        · rcases List.mem_append.mp h12 with h1 | h2
          · obtain ⟨i, -, rfl⟩ := List.mem_map.mp h1
            exact pickChar_not_similar g LOWER _ he (by decide)
          · obtain ⟨i, -, rfl⟩ := List.mem_map.mp h2
            exact pickChar_not_similar g UPPER _ he (by decide)
        · obtain ⟨i, -, rfl⟩ := List.mem_map.mp h3
          exact pickChar_not_similar g DIGITS _ he (by decide)
      · obtain ⟨i, -, rfl⟩ := List.mem_map.mp h4
        exact pickChar_not_similar g SPECIAL _ he (by decide)
    · unfold fillChars at hfill
      obtain ⟨i, -, rfl⟩ := List.mem_map.mp hfill
      exact pickChar_not_similar g g.charset _ he hne
  have hzero : (requiredChars g s ++ fillChars g s).countP
      (fun c => decide (c ∈ SIMILAR)) = 0 :=
    List.countP_eq_zero.mpr (fun c hc => by simpa using hsim c hc)
  refine ⟨?_, by decide, by decide, by decide, by decide⟩
  intro c hc
  have hcnt := fisherYates_countP (fun c => decide (c ∈ SIMILAR)) s
    (effSum g.options + (fillChars g s).length)
    (requiredChars g s ++ fillChars g s)
  rw [hzero] at hcnt
  have := List.countP_eq_zero.mp hcnt c hc
  simpa using this

theorem C5_exclude_similar_witness :
    construct exclOpts = .ok exclGen ∧ ∀ c ∈ c5Chars, c ∉ SIMILAR :=
  ⟨by decide,
    (C5_exclude_similar exclOpts exclGen (fun _ => 0) c5Chars (by decide)
      rfl rfl (by decide)).1⟩

/-- C10: when a request explicitly supplies the empty string as
    separator, the falsy check `separator || "-"` resolves it to the
    default `-`, and the generated passphrase is identical to the one
    produced with the separator absent. -/
theorem C10_empty_separator_default (o : PasswordOptions) (g : Generator)
    (s : ℕ → ℕ) (hg : construct o = .ok g)
    (hsep : o.separator = some emptyStr) :
    resolvedSeparator g.options = "-" ∧
      generatePassphrase g s =
        generatePassphrase
          { g with options := { g.options with separator := none } } s := by
  have hopt := (construct_ok_inv hg).1
  have hsep' : g.options.separator = some emptyStr := by
    rw [hopt, mergePreset_separator]
    exact hsep
  have hres : resolvedSeparator g.options = "-" := by
    unfold resolvedSeparator
    rw [hsep']
    rfl
  refine ⟨hres, ?_⟩
  have hw : generatePassphraseWords
      { g with options := { g.options with separator := none } } s =
      generatePassphraseWords g s := rfl
  unfold generatePassphrase
  rw [hw]
  congr 1
  funext ws
  unfold mkPassphraseResult calculatePassphraseEntropy getWordlist
    resolvedSeparator
  rw [hsep']
  rfl

theorem C10_empty_separator_default_witness :
    construct emptySepOpts = .ok emptySepGen ∧
      resolvedSeparator emptySepGen.options = "-" :=
  ⟨by decide,
    (C10_empty_separator_default emptySepOpts emptySepGen (fun _ => 0)
      (by decide) rfl).1⟩

/-- C3 (counterexample): for range `2^31` the accumulator
    `val = (val << 8) + byte` wraps at 32 bits, so on the all-255 byte
    stream the four bytes read as `-1` instead of the big-endian value
    `2^32 - 1`, the draw is accepted, and `getRandomInt` returns `-1`,
    outside `[0, range)` — refuting the claim for every range `r ≥ 1`. -/
theorem C3_counterexample :
    bytesNeeded (2 ^ 31) = 4 ∧
      beValue allFF 0 4 = 2 ^ 32 - 1 ∧
      jsVal allFF 0 4 = -1 ∧
      getRandomIntFuel allFF (2 ^ 31) 0 1 = some (-1) ∧
      ¬ (0 : ℤ) ≤ -1 := by
  decide

/-- C3 (amended): for every range `r ≥ 1` small enough that its byte
    representation fits 3 bytes (`r ≤ 2^24`, which covers every range
    this program draws from), `getRandomInt(0, r)` computes the minimal
    number of bytes able to represent `r` values, reads them as a
    big-endian unsigned integer `v`, accepts exactly when
    `v < floor(256^n / r) * r` (redrawing fresh bytes otherwise), returns
    `v mod r`, the result always lies in `[0, r)`, and every residue
    below `r` is hit by exactly `floor(256^n / r)` accepted byte
    patterns. -/
theorem C3_rejection_sampler (r : ℕ) (hr : 1 ≤ r) (hsmall : r ≤ 2 ^ 24) :
    (∀ m : ℕ, r ≤ 256 ^ m ↔ bytesNeeded r ≤ m) ∧
      (∀ (bytes : ℕ → ℕ) (k : ℕ),
        jsVal bytes k (bytesNeeded r) =
          (beValue bytes k (bytesNeeded r) : ℤ)) ∧
      (∀ (bytes : ℕ → ℕ) (k fuel : ℕ),
        (beValue bytes k (bytesNeeded r) < maxValue r / r * r →
          getRandomIntFuel bytes r k (fuel + 1) =
            some ((beValue bytes k (bytesNeeded r) % r : ℕ))) ∧
        (¬ beValue bytes k (bytesNeeded r) < maxValue r / r * r →
          getRandomIntFuel bytes r k (fuel + 1) =
            getRandomIntFuel bytes r (k + bytesNeeded r) fuel)) ∧
      (∀ (bytes : ℕ → ℕ) (k fuel : ℕ) (x : ℤ),
        getRandomIntFuel bytes r k fuel = some x → 0 ≤ x ∧ x < r) ∧
      (∀ j < r, ((Finset.range (maxValue r)).filter
          (fun v => v < maxValue r / r * r ∧ v % r = j)).card =
        maxValue r / r) := by
  have hb : bytesNeeded r ≤ 3 :=
    (bytesNeeded_minimal r 3).mp (le_trans hsmall (by norm_num))
  have hsmall31 : 256 ^ bytesNeeded r ≤ 2 ^ 31 :=
    le_trans (Nat.pow_le_pow_right (by norm_num) hb) (by norm_num)
  exact ⟨bytesNeeded_minimal r,
    fun bytes k => jsVal_eq_beValue hsmall31 bytes k,
    fun bytes k fuel => ⟨getRandomIntFuel_accept hsmall31 bytes k fuel,
      getRandomIntFuel_reject hsmall31 bytes k fuel⟩,
    fun bytes k fuel x h => getRandomIntFuel_range hr hsmall31 bytes k fuel x h,
    fun j hj => accepted_fiber_card hj⟩

theorem C3_rejection_sampler_witness :
    ((1 : ℕ) ≤ 10 ∧ (10 : ℕ) ≤ 2 ^ 24) ∧
      ((10 : ℕ) ≤ 256 ^ 1 ↔ bytesNeeded 10 ≤ 1) ∧
      getRandomIntFuel (fun _ => 7) 10 0 1 = some 7 := by
  refine ⟨⟨by norm_num, by norm_num⟩,
    (C3_rejection_sampler 10 (by norm_num) (by norm_num)).1 1, ?_⟩
  have h := ((C3_rejection_sampler 10 (by norm_num)
    (by norm_num)).2.2.1 (fun _ => 7) 0 0).1 (by decide)
  exact h.trans (by decide)

end PwdGen
